import Mathlib

/-!
Verification of the reaper compiler/VM contract.

Shallow embedding of `src/vm.rs` and `src/compiler.rs` (with the AST shapes of
`src/parser.rs`). Rust `Vec` values are modelled as Lean lists with the vector
bottom at the list head: `push` appends at the end, `pop`/`last` work on the
end, and `v[i]` is `List.get? i`. Rust `f64` numbers are abstracted as `ℚ`
(no claim here depends on IEEE-754 rounding, NaN, or the textual rendering of
floats). Rust panics (`unwrap`, `unreachable!`, `unimplemented!`, and
debug-build integer underflow) are modelled as an error result carrying a
message, and the VM's `runtime_error!` macro (eprintln + exit(1)) as a second
error variant; the unchecked bytecode fetch (`get_unchecked`) at an
out-of-range instruction pointer is modelled as a distinguished
undefined-behavior result.

The two source files disagree on the `Opcode` type: `compiler.rs` declares
`Invoke(usize, usize)` and has no `Str`/`Strcat`/`EndOfProgram` variants,
while `vm.rs` matches `Invoke(n)` (one field, the entry operand unused) and
does match `Str`, `Strcat` and `EndOfProgram`. The embedding takes the union
of the variants, with `Invoke` carrying both fields and the VM dispatch
ignoring the `entry` field exactly as the pattern in `vm.rs` does.
-/

namespace Reaper

/-- Runtime value domain, `vm.rs` `Object`. `f64` is abstracted as `ℚ`. -/
inductive Object where
  | Number (n : ℚ)
  | Bool (b : Bool)
  | Str (s : String)
  | Null
deriving DecidableEq, Repr

/-- Internal frame record, `vm.rs` `InternalObject::BytecodePtr(usize, usize)`:
`ptr` is the saved return address, `location` the frame base recorded at
`Invoke` time. It is a separate type from `Object`, exactly as in the source,
so it can never appear on the operand stack. -/
structure BytecodePtr where
  ptr : ℕ
  location : ℕ
deriving DecidableEq, Repr

/-- Instruction set: the union of the `Opcode` enums of `compiler.rs` and
`vm.rs` (see the file header). Jump operands are declared `isize` in
`compiler.rs` but consumed as `usize` by `vm.rs`; every operand the compiler
actually writes is nonnegative, so they are modelled as `ℕ`. -/
inductive Opcode where
  | Print
  | Const (n : ℚ)
  | Add
  | Sub
  | Mul
  | Div
  | Null
  | Not
  | False
  | Eq
  | Jmp (addr : ℕ)
  | Jz (addr : ℕ)
  | Ret
  | Less
  | Deepget (idx : ℕ)
  | Deepset (idx : ℕ)
  | Pop
  | Invoke (n : ℕ) (entry : ℕ)
  | Str (s : String)
  | Strcat
  | EndOfProgram
deriving DecidableEq, Repr

/-- VM state: operand stack, frame-pointer stack, instruction pointer, and the
lines written to stdout so far (the observable output of `Print`). -/
structure VM where
  stack : List Object
  framePtrs : List BytecodePtr
  ip : ℕ
  output : List String
deriving DecidableEq, Repr

/-- Abnormal termination of a handler: `panicked` for Rust panics
(`unwrap` on `None`, `unreachable!`, `unimplemented!`), `exited` for the
`runtime_error!` macro (diagnostic to stderr, `exit(1)`). -/
inductive Fault where
  | panicked (msg : String)
  | exited (msg : String)
deriving DecidableEq, Repr

/-- `Vec::pop` on an end-of-list vector: the last element and the rest. -/
def vecPop (l : List α) : Option (α × List α) :=
  match l.getLast? with
  | none => none
  | some x => some (x, l.dropLast)

/-- `Vec::swap_remove(i)`: replace element `i` with the last element and
shrink by one; `none` when `i` is out of bounds (a Rust panic). -/
def swapRemove (l : List α) (i : ℕ) : Option (List α) :=
  match l.getLast? with
  | none => none
  | some last => if i < l.length then some ((l.set i last).dropLast) else none

/-- `vm.rs` `adjust_idx!`: the effective operand-stack index for a slot
operand. With a frame pointer on the stack the index is
`location + idx`; with an empty frame-pointer stack it is `0 + idx`. -/
def adjustIdx (s : VM) (idx : ℕ) : ℕ :=
  match s.framePtrs.getLast? with
  | some fp => fp.location + idx
  | none => idx

/-- Rust `#[derive(Debug)]` escaping of one character inside a `String`
value (the common escapes; exotic Unicode escapes are not modelled, and no
claim depends on them). -/
def escapeChar (c : Char) : String :=
  if c = '"' then "\\\""
  else if c = '\\' then "\\\\"
  else if c = '\n' then "\\n"
  else if c = '\t' then "\\t"
  else if c = '\r' then "\\r"
  else String.singleton c

/-- Rendering of the `f64` payload in `Number`'s Debug form. The textual
formatting of IEEE-754 doubles is abstracted (numbers are `ℚ` here); no claim
depends on the number case of the format. -/
def fmtF64 (q : ℚ) : String :=
  toString q

/-- The line `println!("\x7b:?\x7d", o)` writes for an `Object` — Rust's
derived `Debug` format (release build; debug builds additionally prefix
`dbg: ` via `cfg!(debug_assertions)`). -/
def rustDebugFmt : Object → String
  | .Number n => "Number(" ++ fmtF64 n ++ ")"
  | .Bool b => "Bool(" ++ (if b then "true" else "false") ++ ")"
  | .Str s => "String(\"" ++ String.join (s.data.map escapeChar) ++ "\")"
  | .Null => "Null"

/-- `handle_op_const`. -/
def handleOpConst (s : VM) (n : ℚ) : Except Fault VM :=
  .ok { s with stack := s.stack ++ [.Number n] }

/-- `handle_op_str`. -/
def handleOpStr (s : VM) (str : String) : Except Fault VM :=
  .ok { s with stack := s.stack ++ [.Str str] }

/-- `handle_op_strcat`: pop `b`, pop `a` (each `unwrap`), concatenate when
both are strings, otherwise `runtime_error!`. -/
def handleOpStrcat (s : VM) : Except Fault VM :=
  match vecPop s.stack with
  | none => .error (.panicked "called unwrap on None")
  | some (b, rest) =>
    match vecPop rest with
    | none => .error (.panicked "called unwrap on None")
    | some (a, rest2) =>
      match a, b with
      | .Str sa, .Str sb => .ok { s with stack := rest2 ++ [.Str (sa ++ sb)] }
      | _, _ => .error (.exited "Can only concatenate two strings.")

/-- `handle_op_print`: `Option` pop; when a value is there, write its Debug
form; when the stack is empty, do nothing at all. -/
def handleOpPrint (s : VM) : Except Fault VM :=
  match vecPop s.stack with
  | none => .ok s
  | some (o, rest) =>
    .ok { s with stack := rest, output := s.output ++ [rustDebugFmt o] }

/-- `impl Add for Object` (other `binop!` bodies analogous): defined on
`Number × Number`, panics otherwise. -/
def objAdd : Object → Object → Except Fault Object
  | .Number a, .Number b => .ok (.Number (a + b))
  | _, _ => .error (.panicked "internal error: entered unreachable code")

/-- `impl Sub for Object`. -/
def objSub : Object → Object → Except Fault Object
  | .Number a, .Number b => .ok (.Number (a - b))
  | _, _ => .error (.panicked "not implemented")

/-- `impl Mul for Object`. -/
def objMul : Object → Object → Except Fault Object
  | .Number a, .Number b => .ok (.Number (a * b))
  | _, _ => .error (.panicked "not implemented")

/-- `impl Div for Object`. -/
def objDiv : Object → Object → Except Fault Object
  | .Number a, .Number b => .ok (.Number (a / b))
  | _, _ => .error (.panicked "not implemented")

/-- `a < b` via `PartialOrd`: `Number × Number` only, panics otherwise. -/
def objLess : Object → Object → Except Fault Object
  | .Number a, .Number b => .ok (.Bool (decide (a < b)))
  | _, _ => .error (.panicked "not implemented")

/-- `a == b` via the derived `PartialEq`: structural equality, `false`
across different variants, never panics. -/
def objEq (a b : Object) : Except Fault Object :=
  .ok (.Bool (decide (a = b)))

/-- The `binop!` macro: pop `b` (`unwrap`), pop `a` (`unwrap`), push the
result of the operator. -/
def binop (s : VM) (op : Object → Object → Except Fault Object) :
    Except Fault VM :=
  match vecPop s.stack with
  | none => .error (.panicked "called unwrap on None")
  | some (b, rest) =>
    match vecPop rest with
    | none => .error (.panicked "called unwrap on None")
    | some (a, rest2) =>
      match op a b with
      | .ok r => .ok { s with stack := rest2 ++ [r] }
      | .error e => .error e

/-- `handle_op_false`. -/
def handleOpFalse (s : VM) : Except Fault VM :=
  .ok { s with stack := s.stack ++ [.Bool false] }

/-- `handle_op_not`: pop (`unwrap`), apply `!` (`Bool` only, panics
otherwise), push. -/
def handleOpNot (s : VM) : Except Fault VM :=
  match vecPop s.stack with
  | none => .error (.panicked "called unwrap on None")
  | some (o, rest) =>
    match o with
    | .Bool b => .ok { s with stack := rest ++ [.Bool (!b)] }
    | _ => .error (.panicked "not implemented")

/-- `handle_op_null`. -/
def handleOpNull (s : VM) : Except Fault VM :=
  .ok { s with stack := s.stack ++ [.Null] }

/-- `handle_op_jmp`: set `ip := addr`, unconditionally and with no range
check (the assertion in the source is commented out). -/
def handleOpJmp (s : VM) (addr : ℕ) : Except Fault VM :=
  .ok { s with ip := addr }

/-- `handle_op_jz`: pop (`unwrap`); jump only when the value is exactly
`Bool(false)`; any other value — including non-Bool values — falls through
silently. -/
def handleOpJz (s : VM) (addr : ℕ) : Except Fault VM :=
  match vecPop s.stack with
  | none => .error (.panicked "called unwrap on None")
  | some (item, rest) =>
    if item = .Bool false then .ok { s with stack := rest, ip := addr }
    else .ok { s with stack := rest }

/-- `handle_op_invoke`: push `BytecodePtr(ip + 1, stack.len() - n)` onto the
frame-pointer stack. Nothing is written to the operand stack and `ip` is not
changed. The `usize` subtraction underflows (a debug-build panic) when
`n > stack.len()`. -/
def handleOpInvoke (s : VM) (n : ℕ) : Except Fault VM :=
  if n ≤ s.stack.length then
    .ok { s with framePtrs := s.framePtrs ++ [⟨s.ip + 1, s.stack.length - n⟩] }
  else
    .error (.panicked "attempt to subtract with overflow")

/-- `handle_op_ret`: pop the frame-pointer stack (`unwrap`) and set
`ip := ptr`. The operand stack is not touched. -/
def handleOpRet (s : VM) : Except Fault VM :=
  match vecPop s.framePtrs with
  | none => .error (.panicked "called unwrap on None")
  | some (fp, rest) => .ok { s with framePtrs := rest, ip := fp.ptr }

/-- `handle_op_deepget`: clone `stack[adjust_idx!(idx)]` and push it; the
plain index panics when out of bounds. -/
def handleOpDeepget (s : VM) (idx : ℕ) : Except Fault VM :=
  match s.stack[adjustIdx s idx]? with
  | none => .error (.panicked "index out of bounds")
  | some item => .ok { s with stack := s.stack ++ [item] }

/-- `handle_op_deepset`: `stack.swap_remove(adjust_idx!(idx))`; panics when
the index is out of bounds. -/
def handleOpDeepset (s : VM) (idx : ℕ) : Except Fault VM :=
  match swapRemove s.stack (adjustIdx s idx) with
  | none => .error (.panicked "swap_remove index out of bounds")
  | some st => .ok { s with stack := st }

/-- `handle_op_pop`: `Option` pop with the result discarded — a silent
no-op on an empty stack. -/
def handleOpPop (s : VM) : Except Fault VM :=
  .ok { s with stack := s.stack.dropLast }

/-- Result of one iteration of the `run` loop. `ub` models the
`get_unchecked` fetch at an out-of-range `ip` (undefined behavior — the
in-loop bounds assertions in the source are commented out). -/
inductive StepResult where
  | ok (s : VM)
  | halt (s : VM)
  | panicked (msg : String)
  | exited (msg : String)
  | ub
deriving DecidableEq, Repr

/-- One iteration of `VM::run`: fetch at `ip` (unchecked), dispatch, then
`ip += 1` (the `EndOfProgram` arm breaks out of the loop instead). The
`Invoke` dispatch arm in `vm.rs` binds only the count operand; the entry
operand is ignored. -/
def step (code : List Opcode) (s : VM) : StepResult :=
  match code[s.ip]? with
  | none => .ub
  | some op =>
    let r : Except Fault VM :=
      match op with
      | .Const n => handleOpConst s n
      | .Str str => handleOpStr s str
      | .Strcat => handleOpStrcat s
      | .Print => handleOpPrint s
      | .Add => binop s objAdd
      | .Sub => binop s objSub
      | .Mul => binop s objMul
      | .Div => binop s objDiv
      | .Less => binop s objLess
      | .Eq => binop s objEq
      | .False => handleOpFalse s
      | .Not => handleOpNot s
      | .Null => handleOpNull s
      | .Jmp addr => handleOpJmp s addr
      | .Jz addr => handleOpJz s addr
      | .Invoke n _entry => handleOpInvoke s n
      | .Ret => handleOpRet s
      | .Deepget idx => handleOpDeepget s idx
      | .Deepset idx => handleOpDeepset s idx
      | .Pop => handleOpPop s
      | .EndOfProgram => .ok s
    match op with
    | .EndOfProgram => .halt s
    | _ =>
      match r with
      | .ok s' => .ok { s' with ip := s'.ip + 1 }
      | .error (.panicked m) => .panicked m
      | .error (.exited m) => .exited m

/-- `VM::load`: append the `EndOfProgram` sentinel. -/
def load (code : List Opcode) : List Opcode :=
  code ++ [.EndOfProgram]

/-- Outcome of running the loop with a step budget. -/
inductive RunResult where
  | halt (s : VM)
  | panicked (msg : String)
  | exited (msg : String)
  | ub
  | outOfFuel
deriving DecidableEq, Repr

/-- The `run` loop, iterated at most `fuel` times. -/
def run (code : List Opcode) : ℕ → VM → RunResult
  | 0, _ => .outOfFuel
  | fuel + 1, s =>
    match step code s with
    | .ok s' => run code fuel s'
    | .halt s' => .halt s'
    | .panicked m => .panicked m
    | .exited m => .exited m
    | .ub => .ub

/-- The initial VM state (`VM::new`). -/
def VM.new : VM := ⟨[], [], 0, []⟩

/-! AST of `parser.rs`. -/

/-- `parser.rs` `Literal`. -/
inductive Lit where
  | Num (n : ℚ)
  | Bool (b : Bool)
  | Null
deriving DecidableEq, Repr

/-- `parser.rs` `BinaryExpressionKind`. -/
inductive BinaryExpressionKind where
  | Add
  | Sub
  | Mul
  | Div
  | Less
  | Equality (negated : Bool)
deriving DecidableEq, Repr

/-- `parser.rs` `Expression` (the boxed sub-expressions become plain
recursive occurrences). -/
inductive Expression where
  | Literal (value : Lit)
  | Variable (value : String)
  | Binary (kind : BinaryExpressionKind) (lhs rhs : Expression)
  | Call (vname : String) (arguments : List Expression)
  | Assign (lhs rhs : Expression)
  | Unary (expr : Expression)
deriving Repr

/-- `parser.rs` `Statement`. -/
inductive Statement where
  | Dummy
  | Print (expression : Reaper.Expression)
  | Fn (name : String) (arguments : List String) (body : Statement)
  | Expression (expression : Reaper.Expression)
  | Return (expression : Reaper.Expression)
  | If (condition : Reaper.Expression) (ifBranch elseBranch : Statement)
  | Block (body : List Statement)
deriving Repr

/-! Compiler of `compiler.rs`. -/

/-- Compiler state. The `HashMap<String, usize>` of function entry points is
modelled as an association list with replace-on-insert and key lookup (the
source only ever inserts and gets by key, so iteration order never matters);
`pops: [usize; 1024]` is a list of length 1024. -/
structure Compiler where
  bytecode : List Opcode
  functions : List (String × ℕ)
  locals : List String
  depth : ℕ
  pops : List ℕ
deriving DecidableEq, Repr

/-- `Compiler::new`. -/
def Compiler.new : Compiler :=
  ⟨[], [], [], 0, List.replicate 1024 0⟩

/-- `HashMap::insert`. -/
def mapInsert (m : List (String × ℕ)) (k : String) (v : ℕ) :
    List (String × ℕ) :=
  match m.findIdx? (fun p => p.1 == k) with
  | some i => m.set i (k, v)
  | none => m ++ [(k, v)]

/-- `HashMap::get`. -/
def mapGet (m : List (String × ℕ)) (k : String) : Option ℕ :=
  (m.find? (fun p => p.1 == k)).map (fun p => p.2)

/-- `Compiler::emit_bytes`: append the opcodes, return the index of the
first one (the length before the append). -/
def emitBytes (c : Compiler) (ops : List Opcode) : Compiler × ℕ :=
  ({ c with bytecode := c.bytecode ++ ops }, c.bytecode.length)

/-- `Compiler::emit_stack_cleanup`: emit `pops[depth]` many `Pop`s. The
counter is read but never reset here. The array index panics when `depth`
is out of bounds. -/
def emitStackCleanup (c : Compiler) : Except String Compiler :=
  match c.pops[c.depth]? with
  | none => .error "index out of bounds"
  | some popcount =>
    .ok { c with bytecode := c.bytecode ++ List.replicate popcount .Pop }

/-- `Compiler::resolve_local`: index of the first local with this name. -/
def resolveLocal (c : Compiler) (name : String) : Option ℕ :=
  c.locals.findIdx? (fun loc => loc == name)

mutual

/-- `Statement`'s `Codegen` impl (`compiler.rs`), one arm per statement
shape; `Dummy` (the catch-all `_` arm) emits nothing. -/
def Statement.codegen : Statement → Compiler → Except String Compiler
  | .Dummy, c => .ok c
  | .Print e, c => do
    let c ← Expression.codegen e c
    .ok (emitBytes c [.Print]).1
  | .Fn name args body, c => do
    let (c, jmpIdx) := emitBytes c [.Jmp 65535]
    let c := { c with functions := mapInsert c.functions name jmpIdx }
    let c := { c with locals := c.locals ++ args }
    let c := { c with pops := c.pops.set 1 c.locals.length }
    let c ←
      match body with
      | .Block _ => Statement.codegen body c
      | _ => .ok c
    let c ← emitStackCleanup c
    let (c, _) := emitBytes c [.Null, .Ret]
    let c := { c with bytecode := c.bytecode.set jmpIdx (.Jmp (c.bytecode.length - 1)) }
    .ok { c with locals := [] }
  | .Expression e, c =>
    match e with
    | .Call _ _ => do
      let c ← Expression.codegen e c
      .ok (emitBytes c [.Pop]).1
    | .Assign _ _ => Expression.codegen e c
    | _ => .error "not implemented"
  | .Return e, c => do
    let c ← Expression.codegen e c
    let k := c.locals.length
    let c := { c with bytecode := c.bytecode ++ (List.range k).map (fun i => .Deepset (k - i)) }
    .ok (emitBytes c [.Ret]).1
  | .If cond ifBranch elseBranch, c => do
    let c ← Expression.codegen cond c
    let (c, jzIdx) := emitBytes c [.Jz 65535]
    let c ← Statement.codegen ifBranch c
    let c := { c with bytecode := c.bytecode.set jzIdx (.Jz (c.bytecode.length - 1)) }
    let (c, elseIdx) := emitBytes c [.Jmp 65535]
    let c ← Statement.codegen elseBranch c
    .ok { c with bytecode := c.bytecode.set elseIdx (.Jmp (c.bytecode.length - 1)) }
  | .Block body, c => do
    let c := { c with depth := c.depth + 1 }
    let c ← stmtListCodegen body c
    let c ← emitStackCleanup c
    .ok { c with depth := c.depth - 1 }

/-- The `for statement in &block.body` loops. -/
def stmtListCodegen : List Statement → Compiler → Except String Compiler
  | [], c => .ok c
  | s :: rest, c => do
    let c ← Statement.codegen s c
    stmtListCodegen rest c

/-- `Expression`'s `Codegen` impl (`compiler.rs`). The source match has no
arm for `Unary` (a variant `parser.rs` declares); that case is mapped to an
error. -/
def Expression.codegen : Expression → Compiler → Except String Compiler
  | .Binary kind lhs rhs, c => do
    let c ← Expression.codegen lhs c
    let c ← Expression.codegen rhs c
    match kind with
    | .Add => .ok (emitBytes c [.Add]).1
    | .Sub => .ok (emitBytes c [.Sub]).1
    | .Mul => .ok (emitBytes c [.Mul]).1
    | .Div => .ok (emitBytes c [.Div]).1
    | .Less => .ok (emitBytes c [.Less]).1
    | .Equality negated =>
      let c := (emitBytes c [.Eq]).1
      if negated then .ok (emitBytes c [.Not]).1 else .ok c
  | .Literal v, c =>
    match v with
    | .Num n => .ok (emitBytes c [.Const n]).1
    | .Bool true => .ok (emitBytes c [.False, .Not]).1
    | .Bool false => .ok (emitBytes c [.False]).1
    | .Null => .ok (emitBytes c [.Null]).1
  | .Variable name, c =>
    match resolveLocal c name with
    | some idx => .ok (emitBytes c [.Deepget (idx + 1)]).1
    | none =>
      let c := { c with locals := c.locals ++ [name] }
      match resolveLocal c name with
      | some idx => .ok (emitBytes c [.Deepget (idx + 1)]).1
      | none => .error "called unwrap on None"
  | .Call vname args, c => do
    let c ← exprListCodegen args c
    match mapGet c.functions vname with
    | none => .error "called unwrap on None"
    | some jmpAddr => .ok (emitBytes c [.Invoke args.length jmpAddr]).1
  | .Assign lhs rhs, c => do
    let variableName ←
      match lhs with
      | .Variable v => Except.ok v
      | _ => Except.error "not implemented"
    let c ← Expression.codegen rhs c
    match resolveLocal c variableName with
    | some idx => .ok (emitBytes c [.Deepset (idx + 1)]).1
    | none =>
      match c.pops[c.depth]? with
      | none => .error "index out of bounds"
      | some p =>
        .ok { c with locals := c.locals ++ [variableName],
                     pops := c.pops.set c.depth (p + 1) }
  | .Unary _, _ => .error "nonexhaustive match on Expression"

/-- The `for argument in &self.arguments` loop of `CallExpression`. -/
def exprListCodegen : List Expression → Compiler → Except String Compiler
  | [], c => .ok c
  | e :: rest, c => do
    let c ← Expression.codegen e c
    exprListCodegen rest c

end

/-- `Compiler::compile`: run codegen over the program and return the
bytecode (`self.bytecode.clone()` — the compiler state is kept). -/
def Compiler.compile (c : Compiler) (ast : List Statement) :
    Except String (Compiler × List Opcode) := do
  let c ← stmtListCodegen ast c
  .ok (c, c.bytecode)

/-- Compile a program with a fresh compiler (how `main.rs` drives it). -/
def compileProgram (ast : List Statement) : Except String (List Opcode) :=
  (Compiler.new.compile ast).map (fun p => p.2)

/-- Decidable equality for `Except`, so concrete results can be `decide`d. -/
instance instDecidableEqExcept [DecidableEq ε] [DecidableEq α] :
    DecidableEq (Except ε α) := fun a b =>
  match a, b with
  | .ok x, .ok y =>
    if h : x = y then .isTrue (by rw [h])
    else .isFalse (fun hc => h (Except.ok.inj hc))
  | .error x, .error y =>
    if h : x = y then .isTrue (by rw [h])
    else .isFalse (fun hc => h (Except.error.inj hc))
  | .ok _, .error _ => .isFalse (fun hc => Except.noConfusion hc)
  | .error _, .ok _ => .isFalse (fun hc => Except.noConfusion hc)

/-- The source program `if (false) print 10; else print 20;` as an AST. -/
def ifElseAst : List Statement :=
  [.If (.Literal (.Bool false)) (.Print (.Literal (.Num 10)))
    (.Print (.Literal (.Num 20)))]

/-- The bytecode `ifElseAst` compiles to (established below). -/
def ifElseCode : List Opcode :=
  [.False, .Jz 3, .Const 10, .Print, .Jmp 6, .Const 20, .Print]

/-- Two sibling blocks, each declaring one fresh local:
`\x7b x = 1; \x7d \x7b y = 2; \x7d` as an AST. -/
def siblingBlocksAst : List Statement :=
  [.Block [.Expression (.Assign (.Variable "x") (.Literal (.Num 1)))],
   .Block [.Expression (.Assign (.Variable "y") (.Literal (.Num 2)))]]

/-! Claim C1: slot addressing. -/

/-- Claim C1 is false as stated: with an empty frame-pointer stack, `Deepget`
with slot 1 reads effective index 1 (here `Number 20`), not index
`slot − 1 = 0` (which holds `Number 10`). -/
theorem c1_counterexample :
    handleOpDeepget ⟨[.Number 10, .Number 20], [], 0, []⟩ 1 =
      .ok ⟨[.Number 10, .Number 20, .Number 20], [], 0, []⟩ ∧
    handleOpDeepget ⟨[.Number 10, .Number 20], [], 0, []⟩ 1 ≠
      .ok ⟨[.Number 10, .Number 20, .Number 10], [], 0, []⟩ := by
  exact ⟨rfl, by decide⟩

/-- Claim C1 (amended): the effective operand-stack index addressed by
`Deepget(slot)` and `Deepset(slot)` is `frame_base + slot` when the
frame-pointer stack is non-empty (with `frame_base` the `location` of the
topmost frame pointer) and `slot` when it is empty — there is no `− 1`. -/
theorem c1_amended_effective_index (s : VM) (slot : ℕ) :
    (s.framePtrs = [] → adjustIdx s slot = slot) ∧
    (∀ fp, s.framePtrs.getLast? = some fp →
      adjustIdx s slot = fp.location + slot) ∧
    (∀ v, s.stack[adjustIdx s slot]? = some v →
      handleOpDeepget s slot = .ok { s with stack := s.stack ++ [v] }) ∧
    (∀ st, swapRemove s.stack (adjustIdx s slot) = some st →
      handleOpDeepset s slot = .ok { s with stack := st }) := by
  refine ⟨?_, ?_, ?_, ?_⟩
  · intro h; simp [adjustIdx, h]
  · intro fp h; simp [adjustIdx, h]
  · intro v h; simp [handleOpDeepget, h]
  · intro st h; simp [handleOpDeepset, h]

/-- Witness for `c1_amended_effective_index` at concrete states: slot 1 maps
to index 1 at top level and to index 4 + 1 = 5 under a frame pointer with
location 4, and `Deepget 1` at top level pushes the element at index 1. -/
theorem c1_amended_effective_index_witness :
    adjustIdx ⟨[.Number 10, .Number 20], [], 0, []⟩ 1 = 1 ∧
    adjustIdx ⟨[.Number 10, .Number 20], [⟨0, 4⟩], 0, []⟩ 1 = 5 ∧
    handleOpDeepget ⟨[.Number 10, .Number 20], [], 0, []⟩ 1 =
      .ok ⟨[.Number 10, .Number 20, .Number 20], [], 0, []⟩ :=
  ⟨(c1_amended_effective_index ⟨[.Number 10, .Number 20], [], 0, []⟩ 1).1 rfl,
   (c1_amended_effective_index ⟨[.Number 10, .Number 20], [⟨0, 4⟩], 0, []⟩ 1).2.1
     ⟨0, 4⟩ rfl,
   (c1_amended_effective_index ⟨[.Number 10, .Number 20], [], 0, []⟩ 1).2.2.1
     (.Number 20) rfl⟩

/-! Claim C2: Invoke. -/

/-- Claim C2 is false as stated: executing `Invoke(1, 5)` on a stack holding
one argument leaves the operand stack unchanged (length 1, no `BytecodePtr`
value inserted, so not length 2) and advances `ip` to 1 — it does not set the
instruction pointer to the entry operand 5. -/
theorem c2_counterexample :
    step [.Invoke 1 5] ⟨[.Number 1], [], 0, []⟩ =
      .ok ⟨[.Number 1], [⟨1, 0⟩], 1, []⟩ ∧
    (⟨[.Number 1], [⟨1, 0⟩], 1, []⟩ : VM).stack.length ≠ 2 ∧
    (⟨[.Number 1], [⟨1, 0⟩], 1, []⟩ : VM).ip ≠ 5 := by
  exact ⟨rfl, by decide, by decide⟩

/-- Claim C2 (amended): executing `Invoke(n, entry)` pushes onto the
frame-pointer stack (not the operand stack) an entry `BytecodePtr(ip + 1,
stack_length − n)` recording the return address and the frame base; the
operand stack is unchanged, the `entry` operand is ignored, and the
instruction pointer simply advances by 1. -/
theorem c2_amended_invoke (code : List Opcode) (s : VM) (n entry : ℕ)
    (hfetch : code[s.ip]? = some (.Invoke n entry))
    (hn : n ≤ s.stack.length) :
    step code s = .ok { s with
      framePtrs := s.framePtrs ++ [⟨s.ip + 1, s.stack.length - n⟩],
      ip := s.ip + 1 } := by
  simp [step, hfetch, handleOpInvoke, hn]

/-- Witness for `c2_amended_invoke` on a one-argument call. -/
theorem c2_amended_invoke_witness :
    step [.Invoke 1 5] ⟨[.Number 1], [], 0, []⟩ =
      .ok ⟨[.Number 1], [⟨1, 0⟩], 1, []⟩ :=
  c2_amended_invoke [.Invoke 1 5] ⟨[.Number 1], [], 0, []⟩ 1 5 rfl (by decide)

/-! Claim C3: Ret. -/

/-- Claim C3 is false as stated: executing `Ret` with a non-empty
frame-pointer stack leaves the operand stack completely untouched (here it
keeps both of its 2 values — nothing is popped and no return address is
swap-removed, so it does not shrink to 1 value). -/
theorem c3_counterexample :
    step [.Ret] ⟨[.Number 7, .Number 9], [⟨3, 1⟩], 0, []⟩ =
      .ok ⟨[.Number 7, .Number 9], [], 4, []⟩ ∧
    (⟨[.Number 7, .Number 9], [], 4, []⟩ : VM).stack.length ≠ 1 := by
  exact ⟨rfl, by decide⟩

/-- Claim C3 (amended): executing `Ret` with a non-empty frame-pointer stack
pops the frame-pointer stack and sets the instruction pointer to the saved
return address (resuming at `ptr + 1` after the post-dispatch increment);
the operand stack is not modified at all. -/
theorem c3_amended_ret (code : List Opcode) (s : VM)
    (rest : List BytecodePtr) (fp : BytecodePtr)
    (hfetch : code[s.ip]? = some .Ret)
    (hfp : s.framePtrs = rest ++ [fp]) :
    step code s = .ok { s with framePtrs := rest, ip := fp.ptr + 1 } := by
  simp [step, hfetch, handleOpRet, vecPop, hfp, List.getLast?_concat,
    List.dropLast_concat]

/-- Witness for `c3_amended_ret` at a concrete state with one frame. -/
theorem c3_amended_ret_witness :
    step [.Ret] ⟨[.Number 7, .Number 9], [⟨3, 1⟩], 0, []⟩ =
      .ok ⟨[.Number 7, .Number 9], [], 4, []⟩ :=
  c3_amended_ret [.Ret] ⟨[.Number 7, .Number 9], [⟨3, 1⟩], 0, []⟩ [] ⟨3, 1⟩
    rfl rfl

/-! Claim C4: if/else lowering. -/

/-- Claim C4: the code patches the `Jz` before emitting the `Jmp`, to operand
`len − 1 = 3`; since a taken jump resumes at operand + 1, a false condition
lands on the `Jmp` at index 4 — not on the first instruction of the compiled
else branch (index 5). Running the compiled `if (false) print 10; else
print 20;` therefore halts with empty output: the else branch is dead code,
where the claim (and spec scenario) require `print 20` to execute. -/
theorem c4_else_branch_dead :
    compileProgram ifElseAst = .ok ifElseCode ∧
    ifElseCode[1]? = some (.Jz 3) ∧
    ifElseCode[5]? = some (.Const 20) ∧
    (3 : ℕ) + 1 ≠ 5 ∧
    run (load ifElseCode) 10 VM.new = .halt ⟨[], [], 7, []⟩ := by
  exact ⟨rfl, rfl, rfl, by decide, rfl⟩

/-! Claim C5: block cleanup pops. -/

set_option maxRecDepth 8192 in
/-- Claim C5: the pops-at-depth counter is never reset after cleanup, so for
two sibling blocks each declaring exactly one local the second block emits
two `Pop`s instead of one — the compiled stream is
`Const 1, Pop, Const 2, Pop, Pop`, not `Const 1, Pop, Const 2, Pop`. -/
theorem c5_sibling_block_pops :
    compileProgram siblingBlocksAst =
      .ok [.Const 1, .Pop, .Const 2, .Pop, .Pop] ∧
    compileProgram siblingBlocksAst ≠
      .ok [.Const 1, .Pop, .Const 2, .Pop] := by
  exact ⟨rfl, by decide⟩

/-! Claim C6: runtime faults on Jz / empty-stack pops. -/

/-- Claim C6 is false as stated: `Jz` with a non-Bool (`Null`) on top pops it
and falls through as a normal `.ok` step — no diagnostic, no exit — and `Pop`
on an empty operand stack is likewise a silent no-op, not a fault. -/
theorem c6_counterexample :
    step [.Jz 7] ⟨[.Null], [], 0, []⟩ = .ok ⟨[], [], 1, []⟩ ∧
    step [.Pop] ⟨[], [], 0, []⟩ = .ok ⟨[], [], 1, []⟩ ∧
    (∀ m, (StepResult.ok ⟨[], [], 1, []⟩) ≠ .exited m) ∧
    (∀ m, (StepResult.ok ⟨[], [], 1, []⟩) ≠ .panicked m) := by
  refine ⟨rfl, rfl, ?_, ?_⟩
  · intro m h; exact StepResult.noConfusion h
  · intro m h; exact StepResult.noConfusion h

/-- Claim C6 (amended): `Jz` jumps only on exactly `Bool(false)`; any other
top value (including non-Bool values) is popped and execution falls through
silently. `Pop` on an empty stack is a silent no-op. Only the instructions
that pop with `unwrap` (arithmetic, comparison, `Not`, `Jz`, `Strcat`) abort
via a panic when the stack is empty. -/
theorem c6_amended_silent_faults (code : List Opcode) (s : VM) :
    (∀ addr v rest, code[s.ip]? = some (.Jz addr) →
      vecPop s.stack = some (v, rest) → v ≠ .Bool false →
      step code s = .ok { s with stack := rest, ip := s.ip + 1 }) ∧
    (code[s.ip]? = some .Pop → s.stack = [] →
      step code s = .ok { s with ip := s.ip + 1 }) ∧
    (code[s.ip]? = some .Not → s.stack = [] →
      step code s = .panicked "called unwrap on None") := by
  refine ⟨?_, ?_, ?_⟩
  · intro addr v rest hfetch hpop hv
    simp [step, hfetch, handleOpJz, hpop, hv]
  · intro hfetch hs
    simp [step, hfetch, handleOpPop, hs]
  · intro hfetch hs
    simp [step, hfetch, handleOpNot, vecPop, hs]

/-- Witness for `c6_amended_silent_faults`: a non-Bool `Jz`, an empty-stack
`Pop`, and an empty-stack `Not`, each at a concrete state. -/
theorem c6_amended_silent_faults_witness :
    step [.Jz 0] ⟨[.Number 3], [], 0, []⟩ = .ok ⟨[], [], 1, []⟩ ∧
    step [.Pop] ⟨[], [], 0, []⟩ = .ok ⟨[], [], 1, []⟩ ∧
    step [.Not] ⟨[], [], 0, []⟩ = .panicked "called unwrap on None" :=
  ⟨(c6_amended_silent_faults [.Jz 0] ⟨[.Number 3], [], 0, []⟩).1 0
      (.Number 3) [] rfl rfl (by decide),
   (c6_amended_silent_faults [.Pop] ⟨[], [], 0, []⟩).2.1 rfl rfl,
   (c6_amended_silent_faults [.Not] ⟨[], [], 0, []⟩).2.2 rfl rfl⟩

/-! Claim C7: out-of-range jumps. -/

/-- Claim C7 is false as stated: executing `Jmp 5` in a 2-instruction program
does not terminate with a diagnostic — the next fetch is an unchecked read at
an out-of-range `ip` (undefined behavior), not a `runtime_error!` exit or a
panic. -/
theorem c7_counterexample :
    run (load [.Jmp 5]) 3 VM.new = .ub ∧
    (∀ m, RunResult.ub ≠ RunResult.exited m) ∧
    (∀ m, RunResult.ub ≠ RunResult.panicked m) := by
  refine ⟨rfl, ?_, ?_⟩
  · intro m h; exact RunResult.noConfusion h
  · intro m h; exact RunResult.noConfusion h

/-- Claim C7 (amended): `Jmp` installs its target unconditionally — there is
no range check on the operand (the assertions are commented out in the
source) — and a subsequent fetch at an `ip` at or beyond the program length
is an unchecked out-of-bounds access, modelled as undefined behavior. -/
theorem c7_amended_unchecked_jumps (code : List Opcode) (s : VM) (addr : ℕ) :
    (code[s.ip]? = some (.Jmp addr) →
      step code s = .ok { s with ip := addr + 1 }) ∧
    (code.length ≤ s.ip → step code s = .ub) := by
  refine ⟨?_, ?_⟩
  · intro hfetch
    simp [step, hfetch, handleOpJmp]
  · intro h
    simp [step, List.getElem?_eq_none h]

/-- Witness for `c7_amended_unchecked_jumps`: `Jmp 5` in a 2-instruction
program sets `ip` to 6 with no fault, and the next fetch is undefined
behavior. -/
theorem c7_amended_unchecked_jumps_witness :
    step (load [.Jmp 5]) VM.new = .ok ⟨[], [], 6, []⟩ ∧
    step (load [.Jmp 5]) ⟨[], [], 6, []⟩ = .ub :=
  ⟨(c7_amended_unchecked_jumps (load [.Jmp 5]) VM.new 5).1 rfl,
   (c7_amended_unchecked_jumps (load [.Jmp 5]) ⟨[], [], 6, []⟩ 5).2
     (by decide)⟩

/-! Claim C8: Print format. -/

/-- Claim C8 is false as stated: printing the string value `hi` writes the
line `String("hi")` — Rust's Debug form with the variant name and quotes —
not the verbatim `hi` the claim requires. -/
theorem c8_counterexample :
    handleOpPrint ⟨[.Str "hi"], [], 0, []⟩ =
      .ok ⟨[], [], 0, ["String(\"hi\")"]⟩ ∧
    ("String(\"hi\")" : String) ≠ "hi" := by
  exact ⟨by decide, by decide⟩

/-- Claim C8 (amended): `Print` pops the top value, if any, and writes the
value's Rust `Debug` form followed by a newline: `Number(…)` for numbers,
`Bool(true)`/`Bool(false)`, `Null`, and `String("…")` with the variant name
and quoting for strings (debug builds additionally prefix `dbg: `); with an
empty stack it writes nothing and is a no-op. -/
theorem c8_amended_print_debug (s : VM) :
    (s.stack = [] → handleOpPrint s = .ok s) ∧
    (∀ o rest, vecPop s.stack = some (o, rest) →
      handleOpPrint s =
        .ok { s with stack := rest, output := s.output ++ [rustDebugFmt o] }) ∧
    rustDebugFmt .Null = "Null" ∧
    rustDebugFmt (.Bool true) = "Bool(true)" ∧
    rustDebugFmt (.Bool false) = "Bool(false)" ∧
    rustDebugFmt (.Str "hi") = "String(\"hi\")" := by
  refine ⟨?_, ?_, rfl, by decide, by decide, by decide⟩
  · intro h; simp [handleOpPrint, vecPop, h]
  · intro o rest h; simp [handleOpPrint, h]

/-- Witness for `c8_amended_print_debug`: printing `Bool(true)` and printing
on an empty stack. -/
theorem c8_amended_print_debug_witness :
    handleOpPrint ⟨[.Bool true], [], 0, []⟩ =
      .ok ⟨[], [], 0, ["Bool(true)"]⟩ ∧
    handleOpPrint ⟨[], [], 0, []⟩ = .ok ⟨[], [], 0, []⟩ :=
  ⟨(c8_amended_print_debug ⟨[.Bool true], [], 0, []⟩).2.1 (.Bool true) [] rfl,
   (c8_amended_print_debug ⟨[], [], 0, []⟩).1 rfl⟩

/-! Claim C9: compilation determinism. -/

/-- Claim C9: compiling the same AST twice (each time from a fresh compiler,
as the pipeline does) yields byte-identical bytecode — the compiler is a pure
function of the AST, with no iteration-order or other nondeterminism. -/
theorem c9_compile_deterministic (ast : List Statement) :
    Compiler.new.compile ast = Compiler.new.compile ast := rfl

/-! Claim C10: variable reference of an unknown name. -/

/-- Claim C10: a variable reference whose name is not in the locals list is
not rejected: the compiler appends the name to the locals list and emits
`Deepget` for the newly created slot (`old length + 1`), and — unlike an
assignment-declaration — leaves the pops-at-depth table untouched, so no
`Pop` is ever emitted for that slot at block exit. -/
theorem c10_variable_read_declares (c : Compiler) (name : String)
    (h : resolveLocal c name = none) :
    Expression.codegen (.Variable name) c =
      .ok { c with locals := c.locals ++ [name],
                   bytecode := c.bytecode ++ [.Deepget (c.locals.length + 1)] } := by
  have h2 : List.findIdx? (fun loc => loc == name) c.locals = none := h
  have hfind : List.findIdx? (fun loc => loc == name) (c.locals ++ [name]) =
      some c.locals.length := by
    simp [List.findIdx?_append, h2]
  simp [Expression.codegen, resolveLocal, h2, hfind, emitBytes]

/-- Witness for `c10_variable_read_declares`: referencing the unknown name
`x` in a fresh compiler declares it as slot 1 and emits `Deepget 1`, with the
pops table left all zero. -/
theorem c10_variable_read_declares_witness :
    Expression.codegen (.Variable "x") Compiler.new =
      .ok { Compiler.new with locals := ["x"], bytecode := [.Deepget 1] } :=
  c10_variable_read_declares Compiler.new "x" rfl

end Reaper
